import Mathlib

/-
Verification development for the FIGI identifier-mapping scripts
(IsinToTicker.py, openfigi_to_isin.py, GetUltimateParent.py).

The Python scripts are shallowly embedded: pure list manipulation becomes
Lean functions, the HTTP layer becomes an oracle parameter (a function from
payload and attempt number to a response value), exceptions become Except,
and Python float sleep durations become rationals.
-/

set_option maxHeartbeats 1000000

/-- A Python value that may or may not be a string; used to model the
runtime isinstance check in the input sanitization of map_isins_to_tickers. -/
inductive PyVal where
  | str (s : String)
  | nonStr (tag : Nat)
deriving DecidableEq

/-- Python truthiness of an optional string: present and non-empty. -/
def pyTruthyStr : Option String → Bool
  | none => false
  | some s => !s.isEmpty

/-- Python membership test of an optional string in a string list
(None is never a member of a list of strings). -/
def pyOptMem (v : Option String) (l : List String) : Bool :=
  match v with
  | some s => l.contains s
  | none => false

/-- Python str.strip(): remove leading and trailing whitespace. -/
def pystrip (s : String) : String :=
  ⟨((s.data.dropWhile Char.isWhitespace).reverse.dropWhile
    Char.isWhitespace).reverse⟩

/-- The chunking pattern shared by all three scripts:
for i in range(0, len(lst), size): yield lst[i:i+size]
for a positive step. Step zero and negative steps are handled by the
wrappers chunk and chunked below, which model the full range semantics. -/
def pychunks : List α → Nat → List (List α)
  | [], _ => []
  | _ :: _, 0 => []
  | a :: as, s + 1 => (a :: as).take (s + 1) :: pychunks ((a :: as).drop (s + 1)) (s + 1)
termination_by l _ => l.length
decreasing_by simp; omega

/-- One candidate record returned by the OpenFIGI mapping endpoint.
Fields are optional strings, mirroring dict.get on the response dict. -/
structure Candidate where
  ticker : Option String
  exchCode : Option String
  name : Option String
  figi : Option String
  shareClassFIGI : Option String
  compositeFIGI : Option String
  marketSector : Option String
  securityType : Option String
  isin : Option String
deriving DecidableEq

/-- One mapping job sent to the OpenFIGI endpoint. -/
structure MappingJob where
  idType : String
  idValue : String
  micCode : Option String
  exchCode : Option String
deriving DecidableEq

/-- One element of the response array: either carries an error key
(error = some msg) or a data array of candidates (get with default []). -/
structure JobResult where
  error : Option String
  data : List Candidate
deriving DecidableEq

namespace IsinToTicker

/-- Embeds chunk from IsinToTicker.py:
for i in range(0, len(lst), size): yield lst[i:i+size].
The size argument is a Python int: step 0 raises ValueError when the
generator is consumed, a negative step makes the range empty. -/
def chunk (lst : List α) (size : Int) : Except String (List (List α)) :=
  if size = 0 then .error "ValueError: range arg 3 must not be zero"
  else if size < 0 then .ok []
  else .ok (pychunks lst size.toNat)

/-- Embeds make_mapping_jobs: one job per ISIN, with the optional
micCode and exchCode keys set only when the arguments are truthy. -/
def make_mapping_jobs (isins : List String) (mic : Option String)
    (exch_code : Option String) : List MappingJob :=
  isins.map fun isin =>
    { idType := "ID_ISIN"
      idValue := isin
      micCode := if pyTruthyStr mic then mic else none
      exchCode := if pyTruthyStr exch_code then exch_code else none }

/-- Embeds the inner score function of select_best_result:
+1 when marketSector equals Equity, +2 when preferred_exch is truthy and
the exchange code is a member, +1 when compositeFIGI is truthy. -/
def score (preferred_exch : Option (List String)) (r : Candidate) : Nat :=
  (if r.marketSector = some "Equity" then 1 else 0) +
  (if (match preferred_exch with
       | some l => !l.isEmpty && pyOptMem r.exchCode l
       | none => false) then 2 else 0) +
  (if pyTruthyStr r.compositeFIGI then 1 else 0)

/-- Embeds select_best_result: None on an empty list, otherwise the head of
the stable descending sort by score (Python sorted with reverse=True is a
stable sort, modelled by mergeSort with the comparator score b <= score a). -/
def select_best_result (results : List Candidate)
    (preferred_exch : Option (List String)) : Option Candidate :=
  if results.isEmpty then none
  else (results.mergeSort fun a b =>
    decide (score preferred_exch b ≤ score preferred_exch a)).head?

/-- An HTTP response as seen by call_openfigi: a status code, the parsed
ratelimit-reset header when present, and the parsed JSON body
(none when the body is not parseable JSON). -/
structure HttpResp where
  status : Nat
  ratelimitReset : Option ℚ
  body : Option (List JobResult)

/-- The exceptions call_openfigi can raise: raise_for_status on a 4xx/5xx
status, or the JSON decoding error raised by resp.json(). -/
inductive CallError where
  | httpStatus (status : Nat)
  | jsonDecode
deriving DecidableEq

/-- Embeds call_openfigi. The network is the oracle post: post jobs k is
the response to the (k+1)-th POST of the payload jobs. On a 429 the code
sleeps reset + 0.5 (reset defaulting to 5 when the header is absent) and
posts the same jobs once more; then raise_for_status, then resp.json().
Returns the list of sleep durations performed and the outcome. -/
def call_openfigi (post : List MappingJob → Nat → HttpResp)
    (jobs : List MappingJob) : List ℚ × Except CallError (List JobResult) :=
  let resp := post jobs 0
  let retried :=
    if resp.status = 429 then
      ([resp.ratelimitReset.getD 5 + 1/2], post jobs 1)
    else ([], resp)
  (retried.1,
    if 400 ≤ retried.2.status then .error (.httpStatus retried.2.status)
    else
      match retried.2.body with
      | some parsed => .ok parsed
      | none => .error .jsonDecode)

/-- Embeds the input sanitization of map_isins_to_tickers:
isins = [s.strip() for s in isins if isinstance(s, str) and s.strip()]. -/
def sanitize (isins : List PyVal) : List String :=
  isins.filterMap fun v =>
    match v with
    | .str s => if (pystrip s).isEmpty then none else some (pystrip s)
    | .nonStr _ => none

/-- The claim C10 wording, as a second definition to compare with sanitize:
every element that is not a string or is whitespace-only is dropped, and
the remaining elements are stripped of surrounding whitespace. -/
def claimSanitize (isins : List PyVal) : List String :=
  (isins.filter fun v =>
    match v with
    | .str s => !(pystrip s).isEmpty
    | .nonStr _ => false).map fun v =>
      match v with
      | .str s => pystrip s
      | .nonStr _ => ""

/-- Embeds the batch size resolution of map_isins_to_tickers:
if batch_size is None: batch_size = 100 if api_key else 10. -/
def resolve_batch_size (batch_size : Option Int) (api_key : Option String) : Int :=
  match batch_size with
  | some b => b
  | none => if pyTruthyStr api_key then 100 else 10

/-- One output row of map_isins_to_tickers (a dict appended to rows). -/
structure Row where
  ISIN : String
  ticker : Option String
  exchCode : Option String
  name : Option String
  figi : Option String
  shareClassFIGI : Option String
  compositeFIGI : Option String
  marketSector : Option String
  securityType : Option String
  error : Option String
deriving DecidableEq

/-- Embeds the per-job entry construction in the response loop of
map_isins_to_tickers: the all-None template, then either the error field,
or the fields of the best candidate when select_best_result found one. -/
def mkEntry (preferred_exch : Option (List String)) (req_job : MappingJob)
    (job_result : JobResult) : Row :=
  let base : Row :=
    { ISIN := req_job.idValue
      ticker := none
      exchCode := none
      name := none
      figi := none
      shareClassFIGI := none
      compositeFIGI := none
      marketSector := none
      securityType := none
      error := none }
  match job_result.error with
  | some e => { base with error := some e }
  | none =>
    match select_best_result job_result.data preferred_exch with
    | some best =>
      { base with
        ticker := best.ticker
        exchCode := best.exchCode
        name := best.name
        figi := best.figi
        shareClassFIGI := best.shareClassFIGI
        compositeFIGI := best.compositeFIGI
        marketSector := best.marketSector
        securityType := best.securityType }
    | none => base

/-- Embeds map_isins_to_tickers, with the network abstracted as the oracle
service (the call_openfigi result for each batch of jobs): sanitize the
input, resolve the batch size, chunk, call the service per block, and zip
each block of jobs with its response positionally. -/
def map_isins_to_tickers (service : List MappingJob → List JobResult)
    (isins : List PyVal) (api_key : Option String)
    (preferred_exch : Option (List String)) (mic : Option String)
    (exch_code : Option String) (batch_size : Option Int) :
    Except String (List Row) :=
  let cleaned := sanitize isins
  match chunk cleaned (resolve_batch_size batch_size api_key) with
  | .error e => .error e
  | .ok blocks =>
    .ok (blocks.map (fun block =>
      let jobs := make_mapping_jobs block mic exch_code
      let response := service jobs
      (jobs.zip response).map fun p => mkEntry preferred_exch p.1 p.2)).flatten

end IsinToTicker

namespace OpenfigiToIsin

/-- Embeds chunked from openfigi_to_isin.py, a duplicate of chunk:
for i in range(0, len(seq), size): yield seq[i:i+size]. -/
def chunked (seq : List α) (size : Int) : Except String (List (List α)) :=
  if size = 0 then .error "ValueError: range arg 3 must not be zero"
  else if size < 0 then .ok []
  else .ok (pychunks seq size.toNat)

/-- The errors map_figi_batch and the fallback loop can raise:
the explicit RuntimeError for HTTP 413, the RuntimeError for other
non-200/429 statuses, the RuntimeError raised after exhausting the 429
retries, the misalignment RuntimeError raised by _map_with_fallback, and
the decode error raised by resp.json() on a non-JSON 200 body. -/
inductive FigiError where
  | http413
  | httpOther (status : Nat)
  | tooManyRetries
  | misaligned
  | jsonDecode
deriving DecidableEq

/-- An HTTP response as seen by map_figi_batch: a status code and the
parsed JSON body (none when the body is not parseable JSON). -/
structure FigiHttpResp where
  status : Nat
  body : Option (List JobResult)
deriving DecidableEq

/-- The attempt loop of map_figi_batch: for attempt in range(1, retry+1),
POST the payload; 200 returns resp.json(), 429 sleeps backoff*attempt and
continues, 413 raises the dedicated RuntimeError, anything else raises;
falling off the loop raises the too-many-attempts RuntimeError.
Returns the sleep durations performed and the outcome. -/
def map_figi_batch_aux (payload : List MappingJob)
    (post : List MappingJob → Nat → FigiHttpResp)
    (retry : Nat) (backoff : ℚ) (attempt : Nat) :
    List ℚ × Except FigiError (List JobResult) :=
  if retry < attempt then ([], .error .tooManyRetries)
  else
    let resp := post payload attempt
    if resp.status = 200 then
      match resp.body with
      | some parsed => ([], .ok parsed)
      | none => ([], .error .jsonDecode)
    else if resp.status = 429 then
      let rest := map_figi_batch_aux payload post retry backoff (attempt + 1)
      (backoff * (attempt : ℚ) :: rest.1, rest.2)
    else if resp.status = 413 then ([], .error .http413)
    else ([], .error (.httpOther resp.status))
termination_by retry + 1 - attempt
decreasing_by omega

/-- Embeds map_figi_batch: the attempt loop starting at attempt 1
(defaults in the source: retry = 3, backoff = 2.0). -/
def map_figi_batch (payload : List MappingJob)
    (post : List MappingJob → Nat → FigiHttpResp)
    (retry : Nat) (backoff : ℚ) : List ℚ × Except FigiError (List JobResult) :=
  map_figi_batch_aux payload post retry backoff 1

/-- A batch size as maintained by _map_with_fallback: always at least 1,
because the entry point takes max(1, max_batch) and halving a size above 1
keeps max(1, size // 2) at least 1. -/
def BatchSize : Type := { n : Nat // 1 ≤ n }

/-- The inner while-True loop of _map_with_fallback for one sub-range:
send payloads[i:i+local_batch_size]; on success check the alignment
len(resp) == len(batch) and return the responses with the size that
worked; on the HTTP 413 RuntimeError with a size above 1, halve the size
(max(1, local_batch_size // 2)) and retry the same sub-range; any other
error propagates. -/
def fallbackInner (call : List MappingJob → Except FigiError (List JobResult))
    (remaining : List MappingJob) (local_batch_size : BatchSize) :
    Except FigiError (List JobResult × BatchSize) :=
  let batch := remaining.take local_batch_size.val
  match call batch with
  | .ok resp =>
    if resp.length ≠ batch.length then .error .misaligned
    else .ok (resp, local_batch_size)
  | .error e =>
    if e = .http413 ∧ 1 < local_batch_size.val then
      fallbackInner call remaining
        ⟨max 1 (local_batch_size.val / 2), Nat.le_max_left 1 _⟩
    else .error e
termination_by local_batch_size.val
decreasing_by omega

/-- The outer while-loop of _map_with_fallback: process the remaining
payloads sub-range by sub-range, advancing by the length of the batch
that succeeded (i += len(batch)) and keeping the size that worked for the
rest of the run (current_batch_size = local_batch_size). -/
def fallbackOuter (call : List MappingJob → Except FigiError (List JobResult))
    (remaining : List MappingJob) (current_batch_size : BatchSize) :
    Except FigiError (List JobResult) :=
  match remaining with
  | [] => .ok []
  | a :: as =>
    match fallbackInner call (a :: as) current_batch_size with
    | .error e => .error e
    | .ok (resp, localSize) =>
      match fallbackOuter call
          ((a :: as).drop ((a :: as).take localSize.val).length) localSize with
      | .error e => .error e
      | .ok rest => .ok (resp ++ rest)
termination_by remaining.length
decreasing_by
  have h1 := localSize.2
  simp
  omega

/-- Embeds _map_with_fallback, with map_figi_batch abstracted as the
oracle call: responses for the whole job list, starting from batch size
max(1, max_batch) and falling back on HTTP 413. -/
def _map_with_fallback (call : List MappingJob → Except FigiError (List JobResult))
    (payloads : List MappingJob) (max_batch : Int) :
    Except FigiError (List JobResult) :=
  fallbackOuter call payloads ⟨(max 1 max_batch).toNat, by omega⟩

/-- A test oracle for the fallback loop: accepts a batch exactly when its
job count is at most the threshold, answering one result per job through
f, and fails with HTTP 413 otherwise. -/
def thresholdCall (threshold : Nat) (f : MappingJob → JobResult)
    (batch : List MappingJob) : Except FigiError (List JobResult) :=
  if batch.length ≤ threshold then .ok (batch.map f) else .error .http413

/-- The batch size the openfigi_to_isin CLI passes to csv_mode/jsonl_mode:
the --batch-size argument when given, otherwise the argparse default 10.
The API key plays no part in this choice. -/
def openfigiEffectiveBatchSize (cli_batch_size : Option Int)
    (_api_key : Option String) : Int :=
  cli_batch_size.getD 10

end OpenfigiToIsin

namespace GetUltimateParent

/-- One item of the data array in a GetUltimateParent result dict. -/
structure GUPItem where
  issuer : Option String
  name : Option String
  securityType : Option String
  ticker : Option String
  exchCode : Option String
  micCode : Option String
deriving DecidableEq

/-- One element of results_all: either a dict without a data key (the
empty placeholder dicts appended on failures, or error dicts from the
service), or a dict carrying a data array. -/
inductive GUPResult where
  | noData
  | withData (items : List GUPItem)
deriving DecidableEq

/-- An HTTP response as seen by the GetUltimateParent batch loop: a status
code and the parsed JSON body (none when the body is not parseable). -/
structure GUPResp where
  status : Nat
  body : Option (List GUPResult)
deriving DecidableEq

/-- The exception post_with_retry can raise: requests.Timeout. -/
inductive ReqError where
  | timeout
deriving DecidableEq

/-- The while-True loop of post_with_retry: attempt starts at 1; a timeout
with attempt <= max_retries sleeps 2 ** attempt and retries, otherwise the
timeout propagates. The oracle outcome gives the response of each attempt
(none = requests.Timeout). Returns the sleep durations and the outcome. -/
def post_with_retry_aux (outcome : Nat → Option GUPResp)
    (max_retries : Nat) (attempt : Nat) : List ℚ × Except ReqError GUPResp :=
  match outcome attempt with
  | some r => ([], .ok r)
  | none =>
    if attempt ≤ max_retries then
      let rest := post_with_retry_aux outcome max_retries (attempt + 1)
      ((2 : ℚ) ^ attempt :: rest.1, rest.2)
    else ([], .error .timeout)
termination_by max_retries + 1 - attempt
decreasing_by omega

/-- Embeds post_with_retry (the source calls it with max_retries = 1). -/
def post_with_retry (outcome : Nat → Option GUPResp) (max_retries : Nat) :
    List ℚ × Except ReqError GUPResp :=
  post_with_retry_aux outcome max_retries 1

/-- The fixed batch size of the GetUltimateParent loop. -/
def gup_batch_size : Nat := 100

/-- Embeds the job construction:
jobs = [dict(idType = ID_BB_GLOBAL, idValue = figi) for figi in figi_list]. -/
def gup_make_jobs (figi_list : List String) : List MappingJob :=
  figi_list.map fun figi =>
    { idType := "ID_BB_GLOBAL"
      idValue := figi
      micCode := none
      exchCode := none }

/-- The body of the GetUltimateParent batch loop for one batch: an escaped
exception from post_with_retry appends len(batch) empty dicts; a 2xx
status appends resp.json() when it parses and len(batch) empty dicts when
it does not; any other status appends len(batch) empty dicts. -/
def gupProcessBatch (outcomes : List MappingJob → Nat → Option GUPResp)
    (batch : List MappingJob) : List GUPResult :=
  match (post_with_retry (outcomes batch) 1).2 with
  | .error _ => List.replicate batch.length .noData
  | .ok resp =>
    if 200 ≤ resp.status ∧ resp.status < 300 then
      match resp.body with
      | some parsed => parsed
      | none => List.replicate batch.length .noData
    else List.replicate batch.length .noData

/-- Embeds the batch loop of GetUltimateParent:
for i in range(0, total, batch_size) with batch_size = 100, accumulating
results_all across batches. -/
def gupBatchLoop (outcomes : List MappingJob → Nat → Option GUPResp)
    (jobs : List MappingJob) : List GUPResult :=
  ((pychunks jobs gup_batch_size).map fun batch =>
    gupProcessBatch outcomes batch).flatten

/-- Python dict.get with the N/A default used by the CSV writer. -/
def naDefault : Option String → String
  | some s => s
  | none => "N/A"

/-- One CSV row written for one item of a data array:
item.get(exchCode, item.get(micCode, N/A)) for the last column. -/
def gupItemRow (figi : String) (item : GUPItem) : List String :=
  [figi, naDefault item.issuer, naDefault item.name,
   naDefault item.securityType, naDefault item.ticker,
   naDefault (item.exchCode.or item.micCode)]

/-- Embeds the CSV writer loop of GetUltimateParent (without the header
row): for figi, result in zip(figi_list, results_all), a result dict with
a data key writes one row per item of the array (zero rows when the array
is empty), any other result writes a single all-N/A row. -/
def gupCsvBody (figi_list : List String) (results_all : List GUPResult) :
    List (List String) :=
  ((figi_list.zip results_all).map fun p =>
    match p.2 with
    | .withData items => items.map (gupItemRow p.1)
    | .noData => [[p.1, "N/A", "N/A", "N/A", "N/A", "N/A"]]).flatten

end GetUltimateParent

/-! Helper lemmas about the shared chunking pattern. -/

theorem pychunks_flatten (l : List α) (s : Nat) (hs : 0 < s) :
    (pychunks l s).flatten = l := by
  induction l, s using pychunks.induct with
  | case1 => simp [pychunks]
  | case2 => omega
  | case3 a as t ih =>
    rw [pychunks]
    simp only [List.flatten_cons, ih (by omega), List.take_append_drop]

theorem pychunks_nil_iff (l : List α) (s : Nat) (hs : 0 < s) :
    pychunks l s = [] ↔ l = [] := by
  cases l with
  | nil => simp [pychunks]
  | cons a as =>
    obtain ⟨t, rfl⟩ : ∃ t, s = t + 1 := ⟨s - 1, by omega⟩
    rw [pychunks]
    simp

theorem pychunks_length (l : List α) (s : Nat) (hs : 0 < s) :
    (pychunks l s).length = (l.length + s - 1) / s := by
  induction l, s using pychunks.induct with
  | case1 x =>
    simp only [pychunks, List.length_nil]
    exact (Nat.div_eq_of_lt (by omega)).symm
  | case2 => omega
  | case3 a as t ih =>
    rw [pychunks]
    simp only [List.length_cons, ih (by omega), List.length_drop,
      Nat.succ_eq_add_one]
    rcases le_or_lt as.length t with h | h
    · have e1 : as.length + 1 - (t + 1) + (t + 1) - 1 = t := by omega
      have e2 : as.length + 1 + (t + 1) - 1 = as.length + (t + 1) := by omega
      rw [e1, e2, Nat.add_div_right _ (by omega), Nat.div_eq_of_lt (by omega),
        Nat.div_eq_of_lt (by omega)]
    · have e1 : as.length + 1 - (t + 1) + (t + 1) - 1 = as.length := by omega
      have e2 : as.length + 1 + (t + 1) - 1 = as.length + (t + 1) := by omega
      rw [e1, e2, Nat.add_div_right _ (by omega)]

theorem pychunks_size_le (l : List α) (s : Nat) (hs : 0 < s) :
    ∀ c ∈ pychunks l s, c.length ≤ s := by
  induction l, s using pychunks.induct with
  | case1 => simp [pychunks]
  | case2 => omega
  | case3 a as t ih =>
    rw [pychunks]
    intro c hc
    rcases List.mem_cons.mp hc with rfl | hc
    · simp
    · exact ih (by omega) c hc

theorem pychunks_dropLast (l : List α) (s : Nat) (hs : 0 < s) :
    ∀ c ∈ (pychunks l s).dropLast, c.length = s := by
  induction l, s using pychunks.induct with
  | case1 => simp [pychunks]
  | case2 => omega
  | case3 a as t ih =>
    rw [pychunks]
    rcases hrest : pychunks ((a :: as).drop (t + 1)) (t + 1) with _ | ⟨r, rs⟩
    · simp
    · intro c hc
      rw [List.dropLast_cons_of_ne_nil (by simp)] at hc
      rcases List.mem_cons.mp hc with rfl | hc
      · have hne : (a :: as).drop (t + 1) ≠ [] := by
          intro h
          rw [h] at hrest
          simp [pychunks] at hrest
        have hlt : t + 1 < (a :: as).length := by
          by_contra hcon
          exact hne (List.drop_eq_nil_of_le (by omega))
        simp only [List.length_take, List.length_cons] at hlt ⊢
        omega
      · have := ih (by omega)
        rw [hrest] at this
        exact this c hc

theorem pychunks_size_eq_of_dvd (l : List α) (s : Nat) (hs : 0 < s)
    (hd : s ∣ l.length) : ∀ c ∈ pychunks l s, c.length = s := by
  induction l, s using pychunks.induct with
  | case1 => simp [pychunks]
  | case2 => omega
  | case3 a as t ih =>
    rw [pychunks]
    intro c hc
    rcases hd with ⟨k, hk⟩
    rcases k with _ | k
    · simp at hk
    have hlen : (a :: as).length = (t + 1) * k + (t + 1) := by
      simp only [Nat.succ_eq_add_one] at hk
      rw [hk]
      ring
    have hge : t + 1 ≤ (a :: as).length := by omega
    rcases List.mem_cons.mp hc with rfl | hc
    · simp only [List.length_take, List.length_cons] at hge ⊢
      omega
    · refine ih (by omega) ?_ c hc
      exact ⟨k, by simp only [List.length_drop]; omega⟩

theorem pychunks_flatMap_replicate (l : List α) (s : Nat) (hs : 0 < s) (x : β) :
    ((pychunks l s).map fun b => List.replicate b.length x).flatten
      = List.replicate l.length x := by
  induction l, s using pychunks.induct with
  | case1 => simp [pychunks]
  | case2 => omega
  | case3 a as t ih =>
    rw [pychunks]
    simp only [List.map_cons, List.flatten_cons, ih (by omega)]
    rw [← List.replicate_add]
    congr 1
    simp only [List.length_take, List.length_drop, List.length_cons]
    omega

/-- Claim C2: for every list of N >= 0 jobs and every batch size B >= 1,
chunk and chunked produce ceil(N/B) contiguous, non-overlapping batches
whose concatenation is the original list (hence sizes summing to N, no
reordering, no deduplication), each of size <= B with only the last batch
possibly smaller, and zero batches when N = 0. -/
theorem chunk_partition_spec {α : Type} (lst : List α) (b : Int) (hb : 1 ≤ b) :
    ∃ cs, IsinToTicker.chunk lst b = .ok cs ∧
      OpenfigiToIsin.chunked lst b = .ok cs ∧
      cs.flatten = lst ∧
      cs.length = (lst.length + b.toNat - 1) / b.toNat ∧
      (∀ c ∈ cs, c.length ≤ b.toNat) ∧
      (∀ c ∈ cs.dropLast, c.length = b.toNat) ∧
      (lst = [] → cs = []) := by
  have h0 : ¬b = 0 := by omega
  have h1 : ¬b < 0 := by omega
  have hpos : 0 < b.toNat := by omega
  refine ⟨pychunks lst b.toNat, ?_, ?_, pychunks_flatten _ _ hpos,
    pychunks_length _ _ hpos, pychunks_size_le _ _ hpos,
    pychunks_dropLast _ _ hpos, ?_⟩
  · simp [IsinToTicker.chunk, h0, h1]
  · simp [OpenfigiToIsin.chunked, h0, h1]
  · intro h
    subst h
    simp [pychunks]

/-- Witness for C2 at a concrete input: five jobs with batch size 2. -/
theorem chunk_partition_spec_witness :
    ∃ cs, IsinToTicker.chunk ([1, 2, 3, 4, 5] : List Nat) 2 = .ok cs ∧
      OpenfigiToIsin.chunked ([1, 2, 3, 4, 5] : List Nat) 2 = .ok cs ∧
      cs.flatten = [1, 2, 3, 4, 5] ∧
      cs.length = (([1, 2, 3, 4, 5] : List Nat).length + (2 : Int).toNat - 1)
        / (2 : Int).toNat ∧
      (∀ c ∈ cs, c.length ≤ (2 : Int).toNat) ∧
      (∀ c ∈ cs.dropLast, c.length = (2 : Int).toNat) ∧
      (([1, 2, 3, 4, 5] : List Nat) = [] → cs = []) :=
  chunk_partition_spec [1, 2, 3, 4, 5] 2 (by norm_num)

/-- Claim C9: on a non-empty job list, the partitioners raise a ValueError
for batch size 0 (when the generator is consumed) and silently yield zero
batches for every negative batch size, dropping all jobs; no B >= 1 check
exists at the interface. -/
theorem chunk_degenerate_sizes (lst : List String) (_hne : lst ≠ [])
    (b : Int) (hb : b < 0) :
    IsinToTicker.chunk lst 0 = .error "ValueError: range arg 3 must not be zero" ∧
    OpenfigiToIsin.chunked lst 0 = .error "ValueError: range arg 3 must not be zero" ∧
    IsinToTicker.chunk lst b = .ok [] ∧
    OpenfigiToIsin.chunked lst b = .ok [] := by
  have h0 : ¬b = 0 := by omega
  exact ⟨rfl, rfl, by simp [IsinToTicker.chunk, h0, hb],
    by simp [OpenfigiToIsin.chunked, h0, hb]⟩

/-- Witness for C9 at a concrete input: a one-job list with size -3. -/
theorem chunk_degenerate_sizes_witness :
    IsinToTicker.chunk ["US0378331005"] 0
      = .error "ValueError: range arg 3 must not be zero" ∧
    OpenfigiToIsin.chunked ["US0378331005"] 0
      = .error "ValueError: range arg 3 must not be zero" ∧
    IsinToTicker.chunk ["US0378331005"] (-3) = .ok [] ∧
    OpenfigiToIsin.chunked ["US0378331005"] (-3) = .ok [] :=
  chunk_degenerate_sizes ["US0378331005"] (by simp) (-3) (by norm_num)

/-- Claim C6 counterexample: in the FIGI-to-ISIN pipeline the effective
batch size with no explicit --batch-size is the argparse default 10 even
when an API key is present, where the claim predicts 100. -/
theorem default_batch_size_counterexample :
    OpenfigiToIsin.openfigiEffectiveBatchSize none (some "demo-key") = 10 ∧
    ¬(10 : Int) = 100 := ⟨rfl, by norm_num⟩

/-- Claim C6 as amended: map_isins_to_tickers defaults the batch size to
100 with a truthy API key and 10 without one (an empty-string key counts
as absent); the FIGI-to-ISIN CLI default is 10 regardless of the API key;
and 120 jobs with no API key are partitioned into 12 batches of size 10. -/
theorem default_batch_sizes_amended (key : String) (hk : key ≠ "")
    (jobs : List String) (hlen : jobs.length = 120) :
    IsinToTicker.resolve_batch_size none none = 10 ∧
    IsinToTicker.resolve_batch_size none (some "") = 10 ∧
    IsinToTicker.resolve_batch_size none (some key) = 100 ∧
    (∀ b k₁ k₂, OpenfigiToIsin.openfigiEffectiveBatchSize b k₁
      = OpenfigiToIsin.openfigiEffectiveBatchSize b k₂) ∧
    ∃ cs, IsinToTicker.chunk jobs (IsinToTicker.resolve_batch_size none none)
        = .ok cs ∧
      cs.length = 12 ∧ (∀ c ∈ cs, c.length = 10) := by
  refine ⟨rfl, rfl, ?_, fun _ _ _ => rfl, pychunks jobs 10, ?_, ?_, ?_⟩
  · simp [IsinToTicker.resolve_batch_size, pyTruthyStr,
      String.isEmpty_iff, hk]
  · simp [IsinToTicker.resolve_batch_size, IsinToTicker.chunk, pyTruthyStr]
  · rw [pychunks_length _ _ (by omega), hlen]
  · exact pychunks_size_eq_of_dvd _ _ (by omega) (by rw [hlen]; omega)

/-- Witness for amended C6 at a concrete input: 120 replicated FIGIs. -/
theorem default_batch_sizes_amended_witness :
    IsinToTicker.resolve_batch_size none none = 10 ∧
    IsinToTicker.resolve_batch_size none (some "") = 10 ∧
    IsinToTicker.resolve_batch_size none (some "demo-key") = 100 ∧
    (∀ b k₁ k₂, OpenfigiToIsin.openfigiEffectiveBatchSize b k₁
      = OpenfigiToIsin.openfigiEffectiveBatchSize b k₂) ∧
    ∃ cs, IsinToTicker.chunk (List.replicate 120 "BBG000B9XRY4")
        (IsinToTicker.resolve_batch_size none none) = .ok cs ∧
      cs.length = 12 ∧ (∀ c ∈ cs, c.length = 10) :=
  default_batch_sizes_amended "demo-key" (by simp)
    (List.replicate 120 "BBG000B9XRY4") (by simp)

/-! Helper lemmas for the result selector. -/

theorem find?_eq_head?_filter (p : α → Bool) (l : List α) :
    l.find? p = (l.filter p).head? := by
  induction l with
  | nil => rfl
  | cons a t ih =>
    cases h : p a with
    | true =>
      rw [List.find?_cons_of_pos _ h, List.filter_cons_of_pos h, List.head?_cons]
    | false =>
      rw [List.find?_cons_of_neg _ (by simp [h]),
        List.filter_cons_of_neg (by simp [h]), ih]

/-- The head of a stable descending sort by a numeric key is the first
element of the list attaining the maximal key. -/
theorem head_mergeSort_first_max {α : Type} [DecidableEq α] (f : α → Nat)
    (l : List α) (hne : l ≠ []) :
    ∃ best, (l.mergeSort fun a b => decide (f b ≤ f a)).head? = some best ∧
      best ∈ l ∧ (∀ r ∈ l, f r ≤ f best) ∧
      l.find? (fun r => decide (f r = f best)) = some best := by
  set le : α → α → Bool := fun a b => decide (f b ≤ f a) with hle
  have htrans : ∀ a b c, le a b = true → le b c = true → le a c = true := by
    intro a b c
    simp only [hle, decide_eq_true_eq]
    omega
  have htotal : ∀ a b, (le a b || le b a) = true := by
    intro a b
    simp only [hle, Bool.or_eq_true, decide_eq_true_eq]
    omega
  have hsne : l.mergeSort le ≠ [] := by
    intro hc
    have hp := List.mergeSort_perm l le
    rw [hc] at hp
    exact hne hp.symm.eq_nil
  refine ⟨(l.mergeSort le).head hsne, List.head?_eq_head hsne, ?_, ?_, ?_⟩
  · exact List.mem_mergeSort.mp (List.head_mem hsne)
  · intro r hr
    have hr2 : r ∈ l.mergeSort le := List.mem_mergeSort.mpr hr
    have hpair := List.sorted_mergeSort htrans htotal l
    rw [← List.head_cons_tail (l.mergeSort le) hsne] at hr2 hpair
    rcases List.mem_cons.mp hr2 with heq | hr3
    · rw [heq]
    · have := (List.pairwise_cons.mp hpair).1 r hr3
      simpa [hle] using this
  · set best := (l.mergeSort le).head hsne with hbest
    set p : α → Bool := fun r => decide (f r = f best) with hp
    have hmemb : best ∈ l := List.mem_mergeSort.mp (List.head_mem hsne)
    have hbestS : best ∈ l.filter p := by
      refine List.mem_filter.mpr ⟨hmemb, ?_⟩
      simp [hp]
    have hSpair : (l.filter p).Pairwise (fun a b => le a b = true) := by
      apply List.pairwise_of_forall_mem_list
      intro a ha b hb
      have ha2 := (List.mem_filter.mp ha).2
      have hb2 := (List.mem_filter.mp hb).2
      simp only [hp, decide_eq_true_eq] at ha2 hb2
      simp only [hle, decide_eq_true_eq]
      omega
    have hSsub : (l.filter p).Sublist (l.mergeSort le) :=
      List.sublist_mergeSort htrans htotal hSpair (List.filter_sublist l)
    obtain ⟨s0, S2, hS⟩ := List.exists_cons_of_ne_nil (List.ne_nil_of_mem hbestS)
    rw [find?_eq_head?_filter, hS]
    have hsort_eq : l.mergeSort le = best :: (l.mergeSort le).tail :=
      (List.head_cons_tail _ hsne).symm
    rw [hS, hsort_eq] at hSsub
    cases hSsub with
    | cons₂ a h => rfl
    | cons a h =>
      exfalso
      have hc1 : (s0 :: S2).count best ≤ ((l.mergeSort le).tail).count best :=
        List.Sublist.count_le h best
      have hc2 : (l.filter p).count best = l.count best :=
        List.count_filter (by simp [hp])
      have hc3 : l.count best = (l.mergeSort le).count best :=
        ((List.mergeSort_perm l le).count_eq best).symm
      have hc4 : (l.mergeSort le).count best
          = ((l.mergeSort le).tail).count best + 1 := by
        conv_lhs => rw [hsort_eq]
        exact List.count_cons_self best _
      rw [hS] at hc2
      omega

/-- Claim C3: select_best_result returns none on an empty candidate list;
on a non-empty list it returns a candidate whose score (+1 when the market
sector equals Equity, +2 when the exchange code is in the preferred set
when supplied, +1 when a composite FIGI value is carried) is at least
every other score, ties broken by first-encountered order (the result is
the first candidate attaining the maximal score). -/
theorem select_best_result_correct (results : List Candidate)
    (pref : Option (List String)) :
    IsinToTicker.select_best_result [] pref = none ∧
    (results ≠ [] → ∃ best,
      IsinToTicker.select_best_result results pref = some best ∧
      best ∈ results ∧
      (∀ r ∈ results, IsinToTicker.score pref r ≤ IsinToTicker.score pref best) ∧
      results.find?
        (fun r => decide (IsinToTicker.score pref r = IsinToTicker.score pref best))
        = some best) := by
  refine ⟨rfl, fun hne => ?_⟩
  obtain ⟨best, h1, h2, h3, h4⟩ :=
    head_mergeSort_first_max (IsinToTicker.score pref) results hne
  refine ⟨best, ?_, h2, h3, h4⟩
  unfold IsinToTicker.select_best_result
  rw [if_neg (by simp [hne]), h1]

/-- Witness for C3 at a concrete input: a zero-score candidate followed by
an Equity candidate on a preferred exchange with a composite FIGI. -/
theorem select_best_result_correct_witness :
    IsinToTicker.select_best_result [] (some ["US"]) = none ∧
    ∃ best,
      IsinToTicker.select_best_result
        [⟨some "AAPL", some "GR", none, none, none, none, none, none, none⟩,
         ⟨some "AAPL", some "US", none, none, none, some "BBG000B9XRY4",
          some "Equity", none, none⟩] (some ["US"]) = some best ∧
      best ∈
        [⟨some "AAPL", some "GR", none, none, none, none, none, none, none⟩,
         ⟨some "AAPL", some "US", none, none, none, some "BBG000B9XRY4",
          some "Equity", none, none⟩] ∧
      (∀ r ∈
        [⟨some "AAPL", some "GR", none, none, none, none, none, none, none⟩,
         ⟨some "AAPL", some "US", none, none, none, some "BBG000B9XRY4",
          some "Equity", none, none⟩],
        IsinToTicker.score (some ["US"]) r
          ≤ IsinToTicker.score (some ["US"]) best) ∧
      List.find?
        (fun r => decide (IsinToTicker.score (some ["US"]) r
          = IsinToTicker.score (some ["US"]) best))
        [⟨some "AAPL", some "GR", none, none, none, none, none, none, none⟩,
         ⟨some "AAPL", some "US", none, none, none, some "BBG000B9XRY4",
          some "Equity", none, none⟩] = some best := by
  have h := select_best_result_correct
    [⟨some "AAPL", some "GR", none, none, none, none, none, none, none⟩,
     ⟨some "AAPL", some "US", none, none, none, some "BBG000B9XRY4",
      some "Equity", none, none⟩] (some ["US"])
  exact ⟨h.1, h.2 (by decide)⟩

/-! Helper lemmas for the adaptive 413 fallback. -/

namespace OpenfigiToIsin

theorem take_append_drop_length (l : List α) (n : Nat) :
    l.take n ++ l.drop (l.take n).length = l := by
  rcases le_or_lt n l.length with h | h
  · rw [List.length_take, min_eq_left h, List.take_append_drop]
  · rw [List.take_of_length_le (le_of_lt h), List.drop_length, List.append_nil]

theorem fallbackInner_threshold (threshold : Nat) (hT : 1 ≤ threshold)
    (f : MappingJob → JobResult) (rem : List MappingJob) :
    ∀ n (s : BatchSize), s.val ≤ n → ∃ s2 : BatchSize,
      fallbackInner (thresholdCall threshold f) rem s
        = .ok ((rem.take s2.val).map f, s2) := by
  intro n
  induction n with
  | zero =>
    intro s hs
    have := s.2
    omega
  | succ n ih =>
    intro s hs
    rw [fallbackInner]
    by_cases hlen : (rem.take s.val).length ≤ threshold
    · have hcall : thresholdCall threshold f (rem.take s.val)
          = .ok ((rem.take s.val).map f) := by
        unfold thresholdCall
        rw [if_pos hlen]
      refine ⟨s, ?_⟩
      simp only [hcall]
      rw [if_neg (by simp)]
    · have hcall : thresholdCall threshold f (rem.take s.val)
          = .error .http413 := by
        unfold thresholdCall
        rw [if_neg hlen]
      have h2 : 1 < s.val := by
        have hmin : (rem.take s.val).length ≤ s.val := List.length_take_le _ _
        have h1 := s.2
        omega
      simp only [hcall]
      rw [if_pos ⟨trivial, h2⟩]
      exact ih ⟨max 1 (s.val / 2), Nat.le_max_left 1 _⟩ (by simp; omega)

theorem fallbackOuter_threshold (threshold : Nat) (hT : 1 ≤ threshold)
    (f : MappingJob → JobResult) :
    ∀ n (rem : List MappingJob) (s : BatchSize), rem.length ≤ n →
      fallbackOuter (thresholdCall threshold f) rem s = .ok (rem.map f) := by
  intro n
  induction n with
  | zero =>
    intro rem s hlen
    have hnil : rem = [] := List.length_eq_zero.mp (by omega)
    subst hnil
    rw [fallbackOuter]
    rfl
  | succ n ih =>
    intro rem s hlen
    cases rem with
    | nil =>
      rw [fallbackOuter]
      rfl
    | cons a as =>
      rw [fallbackOuter]
      obtain ⟨s2, hinner⟩ :=
        fallbackInner_threshold threshold hT f (a :: as) s.val s (le_refl _)
      have hk : 1 ≤ ((a :: as).take s2.val).length := by
        rw [List.length_take]
        exact le_min s2.2 (by simp)
      have hk2 : ((a :: as).drop ((a :: as).take s2.val).length).length ≤ n := by
        rw [List.length_drop]
        simp only [List.length_cons] at hlen ⊢
        omega
      have hrec := ih ((a :: as).drop ((a :: as).take s2.val).length) s2 hk2
      simp only [hinner, hrec]
      rw [← List.map_append, take_append_drop_length]

theorem fallbackInner_zero (f : MappingJob → JobResult)
    (rem : List MappingJob) (hne : rem ≠ []) :
    ∀ n (s : BatchSize), s.val ≤ n →
      fallbackInner (thresholdCall 0 f) rem s = .error .http413 := by
  intro n
  induction n with
  | zero =>
    intro s hs
    have := s.2
    omega
  | succ n ih =>
    intro s hs
    rw [fallbackInner]
    have hlen : ¬(rem.take s.val).length ≤ 0 := by
      rw [List.length_take]
      have h1 := s.2
      have h2 : 0 < rem.length := List.length_pos.mpr hne
      omega
    have hcall : thresholdCall 0 f (rem.take s.val) = .error .http413 := by
      unfold thresholdCall
      rw [if_neg hlen]
    simp only [hcall]
    by_cases h2 : 1 < s.val
    · rw [if_pos ⟨trivial, h2⟩]
      exact ih ⟨max 1 (s.val / 2), Nat.le_max_left 1 _⟩ (by simp; omega)
    · rw [if_neg (by simp [h2])]

theorem fallbackOuter_zero (f : MappingJob → JobResult)
    (rem : List MappingJob) (hne : rem ≠ []) (s : BatchSize) :
    fallbackOuter (thresholdCall 0 f) rem s = .error .http413 := by
  cases rem with
  | nil => exact absurd rfl hne
  | cons a as =>
    rw [fallbackOuter]
    rw [fallbackInner_zero f (a :: as) (by simp) s.val s (le_refl _)]

end OpenfigiToIsin

/-- Claim C4: against a service that accepts a batch exactly when its job
count is at most a threshold and answers payload-too-large otherwise, the
adaptive fallback returns one response per job in order (so the assembled
row count for the sub-range is unchanged by the reductions) whenever the
threshold admits single-job batches; when even a single-job batch fails
with 413 the error is surfaced as fatal; and a 413 at a size above 1 makes
the inner loop retry the same sub-range at the halved size
max(1, size // 2). -/
theorem adaptive_413_fallback (f : MappingJob → JobResult)
    (payloads : List MappingJob) (max_batch : Int) (threshold : Nat) :
    (1 ≤ threshold →
      OpenfigiToIsin._map_with_fallback (OpenfigiToIsin.thresholdCall threshold f)
        payloads max_batch = .ok (payloads.map f)) ∧
    (payloads ≠ [] →
      OpenfigiToIsin._map_with_fallback (OpenfigiToIsin.thresholdCall 0 f)
        payloads max_batch = .error .http413) ∧
    (∀ (call : List MappingJob → Except OpenfigiToIsin.FigiError (List JobResult))
      (rem : List MappingJob) (s : OpenfigiToIsin.BatchSize),
      call (rem.take s.val) = .error .http413 → 1 < s.val →
      OpenfigiToIsin.fallbackInner call rem s
        = OpenfigiToIsin.fallbackInner call rem
            ⟨max 1 (s.val / 2), Nat.le_max_left 1 _⟩) := by
  refine ⟨fun hT => ?_, fun hne => ?_, fun call rem s h413 hs => ?_⟩
  · exact OpenfigiToIsin.fallbackOuter_threshold threshold hT f
      payloads.length payloads _ (le_refl _)
  · exact OpenfigiToIsin.fallbackOuter_zero f payloads hne _
  · conv_lhs => rw [OpenfigiToIsin.fallbackInner]
    simp only [h413]
    rw [if_pos ⟨trivial, hs⟩]

/-- Witness for C4 at concrete inputs: a service accepting only single-job
batches resolves three jobs one per job; a service rejecting even
single-job batches is fatal; a 413 at size 2 halves the size to 1. -/
theorem adaptive_413_fallback_witness :
    OpenfigiToIsin._map_with_fallback
      (OpenfigiToIsin.thresholdCall 1 fun _ => ⟨none, []⟩)
      [⟨"ID_BB_GLOBAL", "BBG000B9XRY4", none, none⟩,
       ⟨"ID_BB_GLOBAL", "BBG000BLNNH6", none, none⟩,
       ⟨"ID_BB_GLOBAL", "BBG000BPH459", none, none⟩] 50
      = .ok [⟨none, []⟩, ⟨none, []⟩, ⟨none, []⟩] ∧
    OpenfigiToIsin._map_with_fallback
      (OpenfigiToIsin.thresholdCall 0 fun _ => ⟨none, []⟩)
      [⟨"ID_BB_GLOBAL", "BBG000B9XRY4", none, none⟩] 50 = .error .http413 ∧
    OpenfigiToIsin.fallbackInner
      (OpenfigiToIsin.thresholdCall 0 fun _ => ⟨none, []⟩)
      [⟨"ID_BB_GLOBAL", "BBG000B9XRY4", none, none⟩,
       ⟨"ID_BB_GLOBAL", "BBG000BLNNH6", none, none⟩] ⟨2, by norm_num⟩
      = OpenfigiToIsin.fallbackInner
          (OpenfigiToIsin.thresholdCall 0 fun _ => ⟨none, []⟩)
          [⟨"ID_BB_GLOBAL", "BBG000B9XRY4", none, none⟩,
           ⟨"ID_BB_GLOBAL", "BBG000BLNNH6", none, none⟩]
          ⟨max 1 (2 / 2), Nat.le_max_left 1 _⟩ := by
  have h := adaptive_413_fallback (fun _ => ⟨none, []⟩)
    [⟨"ID_BB_GLOBAL", "BBG000B9XRY4", none, none⟩,
     ⟨"ID_BB_GLOBAL", "BBG000BLNNH6", none, none⟩,
     ⟨"ID_BB_GLOBAL", "BBG000BPH459", none, none⟩] 50 1
  have h0 := adaptive_413_fallback (fun _ => ⟨none, []⟩)
    [⟨"ID_BB_GLOBAL", "BBG000B9XRY4", none, none⟩] 50 0
  refine ⟨h.1 (by norm_num), h0.2.1 (by simp), ?_⟩
  exact h.2.2 _ _ ⟨2, by norm_num⟩ rfl (by norm_num)

/-- Claim C5 counterexample: a 429 response without a ratelimit-reset
header makes call_openfigi sleep 5.5 time units (the default hint 5 plus
the 0.5 margin), not the 5 time units the claim states. -/
theorem rate_limit_default_sleep_counterexample :
    (IsinToTicker.call_openfigi
      (fun _ n => if n = 0 then ⟨429, none, none⟩ else ⟨200, none, some []⟩)
      []).1 = [11 / 2] ∧ ¬(11 / 2 : ℚ) = 5 := by
  constructor
  · simp [IsinToTicker.call_openfigi]
    norm_num
  · norm_num

/-- Claim C5 as amended: on a 429, call_openfigi sleeps reset + 0.5 when
the header is present and 5.5 otherwise (default hint 5 plus the same
margin), then retries the identical payload exactly once more, failing
with the status error if still rate-limited and succeeding if the retry
returns a parseable 200; map_figi_batch in openfigi_to_isin instead
ignores reset hints, sleeping backoff * attempt (2, 4, 6 with the source
defaults) and retrying the identical payload up to two more times (three
attempts in total) before failing. -/
theorem rate_limit_retry_amended
    (post : List MappingJob → Nat → IsinToTicker.HttpResp)
    (jobs : List MappingJob)
    (post2 : List MappingJob → Nat → OpenfigiToIsin.FigiHttpResp)
    (payload : List MappingJob) :
    ((post jobs 0).status = 429 →
      (IsinToTicker.call_openfigi post jobs).1
        = [(post jobs 0).ratelimitReset.getD 5 + 1 / 2] ∧
      ((post jobs 1).status = 429 →
        (IsinToTicker.call_openfigi post jobs).2 = .error (.httpStatus 429)) ∧
      (∀ parsed, (post jobs 1).status = 200 → (post jobs 1).body = some parsed →
        (IsinToTicker.call_openfigi post jobs).2 = .ok parsed)) ∧
    ((∀ k, (post2 payload k).status = 429) →
      OpenfigiToIsin.map_figi_batch payload post2 3 2
        = ([2, 4, 6], .error .tooManyRetries)) ∧
    (∀ parsed, (post2 payload 1).status = 429 → (post2 payload 2).status = 200 →
      (post2 payload 2).body = some parsed →
      OpenfigiToIsin.map_figi_batch payload post2 3 2 = ([2], .ok parsed)) := by
  refine ⟨fun h429 => ⟨?_, fun h2 => ?_, fun parsed h2 hbody => ?_⟩,
    fun hall => ?_, fun parsed h1 h2 hbody => ?_⟩
  · simp [IsinToTicker.call_openfigi, h429]
  · simp [IsinToTicker.call_openfigi, h429, h2]
  · simp [IsinToTicker.call_openfigi, h429, h2, hbody]
  · simp only [OpenfigiToIsin.map_figi_batch]
    rw [OpenfigiToIsin.map_figi_batch_aux]
    simp [hall]
    rw [OpenfigiToIsin.map_figi_batch_aux]
    simp [hall]
    rw [OpenfigiToIsin.map_figi_batch_aux]
    simp [hall]
    rw [OpenfigiToIsin.map_figi_batch_aux]
    norm_num
  · simp only [OpenfigiToIsin.map_figi_batch]
    rw [OpenfigiToIsin.map_figi_batch_aux]
    simp [h1]
    rw [OpenfigiToIsin.map_figi_batch_aux]
    simp [h2, hbody]

/-- Witness for amended C5 at concrete inputs: a 429 with reset hint 3
followed by a 429, and a 429 followed by a parseable 200. -/
theorem rate_limit_retry_amended_witness :
    (IsinToTicker.call_openfigi (fun _ _ => ⟨429, some 3, none⟩) []).1
      = [(3 : ℚ) + 1 / 2] ∧
    (IsinToTicker.call_openfigi (fun _ _ => ⟨429, some 3, none⟩) []).2
      = .error (.httpStatus 429) ∧
    OpenfigiToIsin.map_figi_batch []
      (fun _ k => if k = 1 then ⟨429, none⟩ else ⟨200, some []⟩) 3 2
      = ([2], .ok []) := by
  have h := rate_limit_retry_amended (fun _ _ => ⟨429, some 3, none⟩) []
    (fun _ k => if k = 1 then ⟨429, none⟩ else ⟨200, some []⟩) []
  have ha := h.1 rfl
  refine ⟨?_, ha.2.1 rfl, h.2.2 [] rfl rfl rfl⟩
  have := ha.1
  simpa using this

/-- Claim C7 counterexample: a success status with a non-parseable body
makes call_openfigi raise the JSON decode error, a fatal outcome, rather
than degrading the batch to an empty per-job result. -/
theorem nonjson_body_counterexample :
    (IsinToTicker.call_openfigi (fun _ _ => ⟨200, none, none⟩) []).2
      = .error IsinToTicker.CallError.jsonDecode ∧
    ¬(Except.error IsinToTicker.CallError.jsonDecode
      = (.ok [] : Except IsinToTicker.CallError (List JobResult))) := by
  exact ⟨by simp [IsinToTicker.call_openfigi], by simp⟩

/-! Helper lemmas for the GetUltimateParent batch loop. -/

namespace GetUltimateParent

theorem gupBatchLoop_const (outcomes : List MappingJob → Nat → Option GUPResp)
    (jobs : List MappingJob)
    (h : ∀ batch, gupProcessBatch outcomes batch
      = List.replicate batch.length GUPResult.noData) :
    gupBatchLoop outcomes jobs = List.replicate jobs.length GUPResult.noData := by
  unfold gupBatchLoop
  rw [List.map_congr_left fun batch _ => h batch]
  exact pychunks_flatMap_replicate jobs gup_batch_size (by norm_num [gup_batch_size]) _

theorem gup_make_jobs_length (figi_list : List String) :
    (gup_make_jobs figi_list).length = figi_list.length := by
  simp [gup_make_jobs]

end GetUltimateParent

/-- Claim C7 as amended: only the GetUltimateParent batch loop treats a
non-parseable body on a success status as a per-batch empty result: each
affected batch contributes one empty placeholder dict per job and the loop
continues through all batches; map_figi_batch in openfigi_to_isin instead
raises the decode error on a 200 response with a non-parseable body
(fatal, and distinct from any per-batch result), as does call_openfigi
(see the C7 counterexample). -/
theorem nonjson_body_amended
    (outcomes : List MappingJob → Nat → Option GetUltimateParent.GUPResp)
    (figi_list : List String)
    (h : ∀ batch, outcomes batch 1 = some ⟨200, none⟩)
    (payload : List MappingJob)
    (post2 : List MappingJob → Nat → OpenfigiToIsin.FigiHttpResp)
    (h200 : (post2 payload 1).status = 200)
    (hbody : (post2 payload 1).body = none) :
    GetUltimateParent.gupBatchLoop outcomes
        (GetUltimateParent.gup_make_jobs figi_list)
      = List.replicate figi_list.length GetUltimateParent.GUPResult.noData ∧
    OpenfigiToIsin.map_figi_batch payload post2 3 2
      = ([], .error .jsonDecode) ∧
    (∀ results : List JobResult,
      ¬(Except.error OpenfigiToIsin.FigiError.jsonDecode
        = (.ok results : Except OpenfigiToIsin.FigiError (List JobResult)))) := by
  refine ⟨?_, ?_, fun results => by simp⟩
  · rw [GetUltimateParent.gupBatchLoop_const,
      GetUltimateParent.gup_make_jobs_length]
    intro batch
    unfold GetUltimateParent.gupProcessBatch GetUltimateParent.post_with_retry
    rw [GetUltimateParent.post_with_retry_aux]
    simp [h batch]
  · simp only [OpenfigiToIsin.map_figi_batch]
    rw [OpenfigiToIsin.map_figi_batch_aux]
    simp [h200, hbody]

/-- Witness for amended C7 at concrete inputs: two FIGIs whose every batch
is answered 200 with a non-parseable body for the GetUltimateParent loop,
and a 200 response with a non-parseable body for map_figi_batch. -/
theorem nonjson_body_amended_witness :
    GetUltimateParent.gupBatchLoop (fun _ _ => some ⟨200, none⟩)
        (GetUltimateParent.gup_make_jobs ["BBG000B9XRY4", "BBG000BLNNH6"])
      = List.replicate 2 GetUltimateParent.GUPResult.noData ∧
    OpenfigiToIsin.map_figi_batch [] (fun _ _ => ⟨200, none⟩) 3 2
      = ([], .error .jsonDecode) ∧
    (∀ results : List JobResult,
      ¬(Except.error OpenfigiToIsin.FigiError.jsonDecode
        = (.ok results : Except OpenfigiToIsin.FigiError (List JobResult)))) :=
  nonjson_body_amended (fun _ _ => some ⟨200, none⟩)
    ["BBG000B9XRY4", "BBG000BLNNH6"] (fun _ => rfl)
    [] (fun _ _ => ⟨200, none⟩) rfl rfl

/-- Claim C8: post_with_retry performs at most one extra attempt on a
timeout, sleeping 2 ** attempt time units between attempts; once the
retry budget is exhausted, the timeout propagates out of post_with_retry
and the batch loop turns it into empty placeholders for that batch only,
continuing with the rest of the run. -/
theorem timeout_retry_spec (outcome : Nat → Option GetUltimateParent.GUPResp)
    (r : GetUltimateParent.GUPResp)
    (outcomes : List MappingJob → Nat → Option GetUltimateParent.GUPResp)
    (figi_list : List String) :
    (outcome 1 = some r →
      GetUltimateParent.post_with_retry outcome 1 = ([], .ok r)) ∧
    (outcome 1 = none → outcome 2 = some r →
      GetUltimateParent.post_with_retry outcome 1 = ([(2 : ℚ) ^ 1], .ok r)) ∧
    (outcome 1 = none → outcome 2 = none →
      GetUltimateParent.post_with_retry outcome 1
        = ([(2 : ℚ) ^ 1], .error .timeout)) ∧
    ((∀ batch n, outcomes batch n = none) →
      GetUltimateParent.gupBatchLoop outcomes
          (GetUltimateParent.gup_make_jobs figi_list)
        = List.replicate figi_list.length GetUltimateParent.GUPResult.noData) := by
  refine ⟨fun h1 => ?_, fun h1 h2 => ?_, fun h1 h2 => ?_, fun hall => ?_⟩
  · unfold GetUltimateParent.post_with_retry
    rw [GetUltimateParent.post_with_retry_aux]
    simp [h1]
  · unfold GetUltimateParent.post_with_retry
    rw [GetUltimateParent.post_with_retry_aux]
    simp only [h1]
    rw [GetUltimateParent.post_with_retry_aux]
    simp [h2]
  · unfold GetUltimateParent.post_with_retry
    rw [GetUltimateParent.post_with_retry_aux]
    simp only [h1]
    rw [GetUltimateParent.post_with_retry_aux]
    simp [h2]
  · rw [GetUltimateParent.gupBatchLoop_const,
      GetUltimateParent.gup_make_jobs_length]
    intro batch
    unfold GetUltimateParent.gupProcessBatch GetUltimateParent.post_with_retry
    rw [GetUltimateParent.post_with_retry_aux]
    simp only [hall]
    rw [GetUltimateParent.post_with_retry_aux]
    simp [hall]

/-- Witness for C8 at concrete inputs: an oracle timing out on the first
attempt and succeeding on the second, one timing out on both, and a batch
loop whose every attempt times out. -/
theorem timeout_retry_spec_witness :
    GetUltimateParent.post_with_retry
        (fun n => if n = 1 then none else some ⟨200, some []⟩) 1
      = ([(2 : ℚ) ^ 1], .ok ⟨200, some []⟩) ∧
    GetUltimateParent.post_with_retry (fun _ => none) 1
      = ([(2 : ℚ) ^ 1], .error .timeout) ∧
    GetUltimateParent.gupBatchLoop (fun _ _ => none)
        (GetUltimateParent.gup_make_jobs ["BBG000B9XRY4"])
      = List.replicate 1 GetUltimateParent.GUPResult.noData := by
  have h1 := timeout_retry_spec
    (fun n => if n = 1 then none else some ⟨200, some []⟩) ⟨200, some []⟩
    (fun _ _ => none) ["BBG000B9XRY4"]
  have h2 := timeout_retry_spec (fun _ => none) ⟨200, some []⟩
    (fun _ _ => none) ["BBG000B9XRY4"]
  exact ⟨h1.2.1 rfl rfl, h2.2.2.1 rfl rfl, h2.2.2.2 fun _ _ => rfl⟩

/-! Helper lemmas for the ISIN pipeline row assembly. -/

theorem filterMap_eq_self_of_some {α : Type} (f : α → Option α) :
    ∀ l : List α, (∀ a ∈ l, f a = some a) → l.filterMap f = l := by
  intro l
  induction l with
  | nil => intro _; rfl
  | cons a t ih =>
    intro h
    simp only [List.filterMap_cons, h a (List.mem_cons_self a t)]
    rw [ih fun x hx => h x (List.mem_cons_of_mem a hx)]

namespace IsinToTicker

theorem mkEntry_ISIN (pref : Option (List String)) (j : MappingJob)
    (r : JobResult) : (mkEntry pref j r).ISIN = j.idValue := by
  rcases hr : r.error with _ | e <;>
    rcases hb : select_best_result r.data pref with _ | best <;>
    simp [mkEntry, hr, hb]

theorem blocks_proj (service : List MappingJob → List JobResult)
    (hs : ∀ jobs, (service jobs).length = jobs.length)
    (pref : Option (List String)) (mic exch : Option String)
    (blocks : List (List String)) :
    (((blocks.map fun block =>
        ((make_mapping_jobs block mic exch).zip
          (service (make_mapping_jobs block mic exch))).map
          fun p => mkEntry pref p.1 p.2).flatten).map Row.ISIN)
      = blocks.flatten := by
  rw [List.map_flatten, List.map_map]
  have hfun : (List.map Row.ISIN ∘ fun block =>
      ((make_mapping_jobs block mic exch).zip
        (service (make_mapping_jobs block mic exch))).map
        fun p => mkEntry pref p.1 p.2) = fun (block : List String) => block := by
    funext block
    simp only [Function.comp_apply, List.map_map]
    have hstep : ((make_mapping_jobs block mic exch).zip
          (service (make_mapping_jobs block mic exch))).map
          (Row.ISIN ∘ fun p => mkEntry pref p.1 p.2)
        = ((make_mapping_jobs block mic exch).zip
          (service (make_mapping_jobs block mic exch))).map
          (MappingJob.idValue ∘ Prod.fst) :=
      List.map_congr_left fun p _ => mkEntry_ISIN pref p.1 p.2
    rw [hstep, ← List.map_map,
      List.map_fst_zip _ _ (le_of_eq (hs _).symm)]
    unfold make_mapping_jobs
    rw [List.map_map]
    exact List.map_id' block
  rw [hfun, List.map_id']

theorem map_isins_ok (service : List MappingJob → List JobResult)
    (hs : ∀ jobs, (service jobs).length = jobs.length)
    (isins : List PyVal) (api_key : Option String)
    (pref : Option (List String)) (mic exch : Option String)
    (batch_size : Option Int) (hbs : ∀ b, batch_size = some b → 1 ≤ b) :
    ∃ rows, map_isins_to_tickers service isins api_key pref mic exch batch_size
        = .ok rows ∧
      rows.map Row.ISIN = sanitize isins ∧
      rows.length = (sanitize isins).length := by
  have hbpos : 1 ≤ resolve_batch_size batch_size api_key := by
    cases batch_size with
    | some v => exact hbs v rfl
    | none =>
      unfold resolve_batch_size
      by_cases h : pyTruthyStr api_key = true
      · rw [if_pos h]
        norm_num
      · rw [if_neg h]
        norm_num
  have htpos : 0 < (resolve_batch_size batch_size api_key).toNat := by omega
  have hchunk : chunk (sanitize isins) (resolve_batch_size batch_size api_key)
      = .ok (pychunks (sanitize isins)
          (resolve_batch_size batch_size api_key).toNat) := by
    unfold chunk
    rw [if_neg (by omega), if_neg (by omega)]
  have hproj := blocks_proj service hs pref mic exch
    (pychunks (sanitize isins) (resolve_batch_size batch_size api_key).toNat)
  rw [pychunks_flatten _ _ htpos] at hproj
  refine ⟨_, ?_, hproj, ?_⟩
  · simp only [map_isins_to_tickers, hchunk]
  · have hlen := congrArg List.length hproj
    rw [List.length_map] at hlen
    exact hlen

end IsinToTicker

/-- Claim C1 counterexample: the GetUltimateParent CSV writer emits one
row per candidate of a result, not one row per input identifier: a single
FIGI whose result carries two candidates yields two rows, and a result
whose data array is empty yields zero rows. -/
theorem gup_rows_counterexample :
    (GetUltimateParent.gupCsvBody ["BBG000B9XRY4"]
      [GetUltimateParent.GUPResult.withData
        [⟨none, none, none, none, none, none⟩,
         ⟨none, none, none, none, none, none⟩]]).length = 2 ∧
    (GetUltimateParent.gupCsvBody ["BBG000B9XRY4"]
      [GetUltimateParent.GUPResult.withData []]).length = 0 ∧
    ¬(2 : Nat) = 1 ∧ ¬(0 : Nat) = 1 := by
  exact ⟨rfl, rfl, by norm_num, by norm_num⟩

/-- Claim C1 as amended: for every list of K identifiers that survive
sanitization unchanged (plain non-blank stripped strings), the
map_isins_to_tickers pipeline emits exactly K rows, one per input
identifier in input order, regardless of how many batches the partitioner
created, each row paired with its result positionally (given the service
answers one result per job); the GetUltimateParent CSV writer does not
satisfy this: it emits one row per returned candidate. -/
theorem rows_one_per_identifier (service : List MappingJob → List JobResult)
    (hs : ∀ jobs, (service jobs).length = jobs.length)
    (ids : List String) (hclean : ∀ s ∈ ids, pystrip s = s ∧ ¬s = "")
    (api_key : Option String) (pref : Option (List String))
    (mic exch : Option String) :
    ∃ rows, IsinToTicker.map_isins_to_tickers service (ids.map PyVal.str)
        api_key pref mic exch none = .ok rows ∧
      rows.length = ids.length ∧ rows.map IsinToTicker.Row.ISIN = ids := by
  obtain ⟨rows, h1, h2, h3⟩ := IsinToTicker.map_isins_ok service hs
    (ids.map .str) api_key pref mic exch none (fun b hb => by cases hb)
  have hsan : IsinToTicker.sanitize (ids.map PyVal.str) = ids := by
    unfold IsinToTicker.sanitize
    rw [List.filterMap_map]
    refine filterMap_eq_self_of_some _ ids fun s hset => ?_
    obtain ⟨htrim, hne⟩ := hclean s hset
    simp only [Function.comp_apply, htrim]
    rw [if_neg (by simp [String.isEmpty_iff, hne])]
  exact ⟨rows, h1, by rw [h3, hsan], by rw [h2, hsan]⟩

/-- Witness for amended C1 at concrete inputs: the two demo ISINs of the
source, a service answering one empty result per job. -/
theorem rows_one_per_identifier_witness :
    ∃ rows, IsinToTicker.map_isins_to_tickers
        (fun jobs => jobs.map fun _ => ⟨none, []⟩)
        (["US0378331005", "US5949181045"].map PyVal.str)
        none none none none none = .ok rows ∧
      rows.length = (["US0378331005", "US5949181045"] : List String).length ∧
      rows.map IsinToTicker.Row.ISIN = ["US0378331005", "US5949181045"] :=
  rows_one_per_identifier (fun jobs => jobs.map fun _ => ⟨none, []⟩)
    (fun jobs => by simp) ["US0378331005", "US5949181045"]
    (by decide) none none none none

/-- Claim C10: map_isins_to_tickers sanitizes its input before any
batching: elements that are not strings or are whitespace-only are
silently dropped and the rest are stripped (sanitize agrees with the
claim wording claimSanitize), and the output has one row per retained
stripped ISIN rather than one per raw input element. -/
theorem sanitize_one_row_per_retained
    (service : List MappingJob → List JobResult)
    (hs : ∀ jobs, (service jobs).length = jobs.length)
    (isins : List PyVal) (api_key : Option String)
    (pref : Option (List String)) (mic exch : Option String) :
    IsinToTicker.sanitize isins = IsinToTicker.claimSanitize isins ∧
    ∃ rows, IsinToTicker.map_isins_to_tickers service isins api_key pref
        mic exch none = .ok rows ∧
      rows.length = (IsinToTicker.sanitize isins).length ∧
      rows.map IsinToTicker.Row.ISIN = IsinToTicker.sanitize isins := by
  constructor
  · induction isins with
    | nil => rfl
    | cons v tl ih =>
      cases v with
      | str s =>
        by_cases h : (pystrip s).isEmpty = true
        · simp only [IsinToTicker.sanitize, IsinToTicker.claimSanitize,
            List.filterMap_cons, List.filter_cons, h, Bool.not_true,
            if_true, if_false] at ih ⊢
          simpa [h] using ih
        · simp only [IsinToTicker.sanitize, IsinToTicker.claimSanitize,
            List.filterMap_cons, List.filter_cons] at ih ⊢
          simp only [h, Bool.not_false, if_true, if_false, List.map_cons]
          simpa [h] using congrArg (List.cons (pystrip s)) ih
      | nonStr t =>
        simp only [IsinToTicker.sanitize, IsinToTicker.claimSanitize,
          List.filterMap_cons, List.filter_cons] at ih ⊢
        simpa using ih
  · obtain ⟨rows, h1, h2, h3⟩ := IsinToTicker.map_isins_ok service hs isins
      api_key pref mic exch none (fun b hb => by cases hb)
    exact ⟨rows, h1, h3, h2⟩

/-- Witness for C10 at concrete inputs: a padded ISIN, a non-string
element and a whitespace-only string; one row per retained element. -/
theorem sanitize_one_row_per_retained_witness :
    IsinToTicker.sanitize
        [PyVal.str " US0378331005 ", PyVal.nonStr 0, PyVal.str "  "]
      = IsinToTicker.claimSanitize
        [PyVal.str " US0378331005 ", PyVal.nonStr 0, PyVal.str "  "] ∧
    ∃ rows, IsinToTicker.map_isins_to_tickers
        (fun jobs => jobs.map fun _ => ⟨none, []⟩)
        [PyVal.str " US0378331005 ", PyVal.nonStr 0, PyVal.str "  "]
        none none none none none = .ok rows ∧
      rows.length = (IsinToTicker.sanitize
        [PyVal.str " US0378331005 ", PyVal.nonStr 0, PyVal.str "  "]).length ∧
      rows.map IsinToTicker.Row.ISIN = IsinToTicker.sanitize
        [PyVal.str " US0378331005 ", PyVal.nonStr 0, PyVal.str "  "] :=
  sanitize_one_row_per_retained (fun jobs => jobs.map fun _ => ⟨none, []⟩)
    (fun jobs => by simp)
    [PyVal.str " US0378331005 ", PyVal.nonStr 0, PyVal.str "  "]
    none none none none
